import Mathlib

/-!
Verification of `fetch_latest_server_files.js`.

The program is a single sequential pipeline: query a catalog API for the
files of a modpack, pick the newest server-pack release for the configured
Minecraft version, download and extract it, locate the server jar, and patch
two text files (`launch.sh` and `Dockerfile`).

Shallow embedding conventions:
- Timestamps (`new Date(file.fileDate)` values) are modelled as `Nat`
  millisecond counts; the JS sort comparator subtracts them, which orders by
  this number descending.  JS `Array.prototype.sort` is stable (ECMAScript
  2019), embedded here as a stable insertion sort.
- A possibly-missing / falsy JS field is an `Option`; a numeric id is truthy
  exactly when it is present and nonzero.
- Text files are lists of newline-free lines.  The two patched regexes are
  `/^SERVER_VERSION=.*$/m` and a COPY/ADD directive pattern; with the `m`
  flag `^`/`$` anchor at line boundaries and `.` never crosses a newline, so
  both substitutions are replacements of the first matching line.  (For the
  directive pattern, `\s`/`[^ ]` could in principle also consume a newline;
  matches spanning a line break are outside this line-based model.)
- The directive pattern is matched by a small Brzozowski-derivative regex
  engine over `Char` classes; `\s` is modelled by the ASCII whitespace
  characters (the Unicode space classes of JS `\s` are elided).
- Filesystem state and HTTP responses are explicit values; each `await`ed
  step that can throw is modelled as a fallible outcome.
-/

/-- Configured modpack id (`MODPACK_ID` constant in the source). -/
def MODPACK_ID : Nat := 925200

/-- Configured target Minecraft version (`MINECRAFT_VERSION` in the source). -/
def MINECRAFT_VERSION : String := "1.21"

/-- `TEMP_DIR` constant in the source. -/
def TEMP_DIR : String := "./temp_server_files"

/-- `SERVER_FILE_NAME` constant in the source. -/
def SERVER_FILE_NAME : String := "server-files.zip"

/-- `LAUNCH_SH_PATH` constant in the source. -/
def LAUNCH_SH_PATH : String := "launch.sh"

/-- `DOCKERFILE_PATH` constant in the source. -/
def DOCKERFILE_PATH : String := "Dockerfile"

/-- One entry of the catalog file listing (`files` array elements).
`gameVersion` is `none` when the field is missing (`!file.gameVersion`),
`serverPackFileId` is `none` when absent; the JS value `0` is also falsy,
so truthiness is checked separately by `serverPackTruthy`. -/
structure FileMetadata where
  displayName : String
  fileName : String
  fileDate : Nat
  gameVersion : Option (List String)
  serverPackFileId : Option Nat
deriving DecidableEq

/-- The record returned by the second catalog lookup (`api.getFile`). -/
structure FileDetail where
  downloadUrl : String
deriving DecidableEq

/-- The value returned by `findLatestServerFile` on success. -/
structure ResolvedRelease where
  downloadUrl : String
  modpackVersion : String
  fileName : String
  displayName : String
deriving DecidableEq

/-- The two throw sites of `findLatestServerFile`:
line 53 (response `data` is not an array) and line 70 (no candidate). -/
inductive FetchError where
  | upstreamResponse : FetchError
  | noMatchingRelease : FetchError
deriving DecidableEq

/-- The catalog response: `data = none` models a response whose `data`
property is not an array (`!Array.isArray(files)`). -/
structure ApiResponse where
  data : Option (List FileMetadata)

/-- JS truthiness of `file.serverPackFileId` (absent, `null` and `0` are
falsy). -/
def serverPackTruthy (file : FileMetadata) : Bool :=
  match file.serverPackFileId with
  | none => false
  | some id => id != 0

/-- The filter callback at lines 58-66 of the source: return `false` when
`gameVersion` is missing, otherwise require a truthy `serverPackFileId` and
membership of `MINECRAFT_VERSION` in the version-tag list. -/
def fileEligible (file : FileMetadata) : Bool :=
  match file.gameVersion with
  | none => false
  | some tags => serverPackTruthy file && tags.contains MINECRAFT_VERSION

/-- `files.filter(...)` at line 57. -/
def candidateFilter (files : List FileMetadata) : List FileMetadata :=
  files.filter fileEligible

/-- Stable insertion of `x` into a list already sorted by `fileDate`
descending: `x` passes strictly newer entries and stops in front of the
first entry that is not strictly newer, so among equal dates the
original (earlier) element stays first — the stability guarantee of JS
`Array.prototype.sort` with comparator `(a, b) => dateB - dateA`. -/
def insertByDateDesc (x : FileMetadata) : List FileMetadata → List FileMetadata
  | [] => [x]
  | y :: ys => if x.fileDate < y.fileDate then y :: insertByDateDesc x ys else x :: y :: ys

/-- Stable sort by `fileDate` descending (`.sort((a, b) => new Date(b.fileDate) - new Date(a.fileDate))`). -/
def sortByDateDesc : List FileMetadata → List FileMetadata
  | [] => []
  | x :: xs => insertByDateDesc x (sortByDateDesc xs)

/-- `sorted[0]` at line 67: the head of the descending-sorted list, `none`
(JS `undefined`) when the list is empty. -/
def selectLatest (files : List FileMetadata) : Option FileMetadata :=
  (sortByDateDesc files).head?

/-- `fileName.replace(/\.zip$/, '')` at line 81: drop a trailing `.zip`. -/
def stripZipSuffix (s : String) : String :=
  if ".zip".data.isSuffixOf s.data then String.mk (s.data.take (s.data.length - 4)) else s

/-- `findLatestServerFile` (lines 42-85).  The catalog response and the
second lookup `api.getFile(MODPACK_ID, id)` are passed in as values. -/
def findLatestServerFile (resp : ApiResponse) (getFile : Nat → FileDetail) :
    Except FetchError ResolvedRelease :=
  match resp.data with
  | none => .error .upstreamResponse
  | some files =>
    match selectLatest (candidateFilter files) with
    | none => .error .noMatchingRelease
    | some serverFile =>
      let serverPackFile := getFile (serverFile.serverPackFileId.getD 0)
      .ok { downloadUrl := serverPackFile.downloadUrl
            modpackVersion := stripZipSuffix serverFile.fileName
            fileName := serverFile.fileName
            displayName := serverFile.displayName }

/-- The two throw sites of `downloadFile`: the non-2xx status check at
line 95 and a rejection of the streaming promise. -/
inductive DownloadError where
  | badStatus : DownloadError
  | streamError : DownloadError
deriving DecidableEq

/-- Outcome of streaming the response body: either the full byte sequence
arrives, or the stream errors after delivering some bytes. -/
inductive StreamOutcome where
  | success : List Nat → StreamOutcome
  | errored : List Nat → StreamOutcome
deriving DecidableEq

/-- An HTTP response as seen by `downloadFile`: `ok` is `response.ok`
(status in the 2xx range) and `body` the body stream's behaviour. -/
structure HttpResponse where
  ok : Bool
  body : StreamOutcome
deriving DecidableEq

/-- Local files as an association list from path to byte content; the most
recent binding for a path is the file's content. -/
abbrev FileSystem : Type := List (String × List Nat)

/-- Creating / overwriting a file (`createWriteStream` target). -/
def setFile (fs : FileSystem) (p : String) (bytes : List Nat) : FileSystem :=
  (p, bytes) :: fs

/-- `downloadFile(url, outputPath)` (lines 92-106) over an explicit response
and filesystem.  The status check happens before `createWriteStream`, so a
bad status leaves the filesystem untouched; a stream error rejects after the
write stream has received a partial body. -/
def downloadFile (resp : HttpResponse) (fs : FileSystem) (outputPath : String) :
    Except DownloadError Unit × FileSystem :=
  if resp.ok = false then (.error .badStatus, fs)
  else
    match resp.body with
    | .success bytes => (.ok (), setFile fs outputPath bytes)
    | .errored bytes => (.error .streamError, setFile fs outputPath bytes)

/-- Replace the first line satisfying `p` with `new`; a list with no such
line is returned unchanged.  This is `String.replace` with a non-global
multiline regex anchored by `^`/`$`, on the line-based view of the text. -/
def replaceFirstLine (p : String → Bool) (new : String) : List String → List String
  | [] => []
  | l :: ls => if p l then new :: ls else l :: replaceFirstLine p new ls

/-- A line matches `/^SERVER_VERSION=.*$/m` exactly when it starts with the
literal `SERVER_VERSION=` (the `.*$` then matches the rest of the line). -/
def isServerVersionLine (l : String) : Bool :=
  "SERVER_VERSION=".data.isPrefixOf l.data

/-- The `launch.sh` substitution at lines 134-137. -/
def patchLaunchScript (lines : List String) (versionLabel : String) : List String :=
  replaceFirstLine isServerVersionLine ("SERVER_VERSION=" ++ versionLabel) lines

/-- Regular expressions over `Char` with character classes. -/
inductive RE where
  | emp : RE
  | eps : RE
  | cls : (Char → Bool) → RE
  | alt : RE → RE → RE
  | cat : RE → RE → RE
  | star : RE → RE

/-- Does the expression accept the empty word? -/
def RE.nullable : RE → Bool
  | .emp => false
  | .eps => true
  | .cls _ => false
  | .alt a b => a.nullable || b.nullable
  | .cat a b => a.nullable && b.nullable
  | .star _ => true

/-- Smart alternation (keeps derivatives small). -/
def RE.salt : RE → RE → RE
  | .emp, b => b
  | a, .emp => a
  | a, b => .alt a b

/-- Smart concatenation (keeps derivatives small). -/
def RE.scat : RE → RE → RE
  | .emp, _ => .emp
  | _, .emp => .emp
  | .eps, b => b
  | a, .eps => a
  | a, b => .cat a b

/-- Brzozowski derivative with respect to one character. -/
def RE.deriv (r : RE) (c : Char) : RE :=
  match r with
  | .emp => .emp
  | .eps => .emp
  | .cls p => if p c then .eps else .emp
  | .alt a b => .salt (a.deriv c) (b.deriv c)
  | .cat a b =>
    if a.nullable then .salt (.scat (a.deriv c) b) (b.deriv c)
    else .scat (a.deriv c) b
  | .star a => .scat (a.deriv c) (.star a)

/-- Whole-word regex matching by iterated derivatives. -/
def reMatch (r : RE) (s : List Char) : Bool :=
  (s.foldl RE.deriv r).nullable

/-- Literal single character. -/
def reChar (c : Char) : RE := .cls (fun d => d == c)

/-- Literal string. -/
def reStr (s : String) : RE := s.data.foldr (fun c r => .cat (reChar c) r) .eps

/-- `r+`. -/
def rePlus (r : RE) : RE := .cat r (.star r)

/-- JS `\s`, restricted to its ASCII members. -/
def isJsWhitespace (c : Char) : Bool :=
  c == ' ' || c == '\t' || c == '\n' || c == '\r' || c == Char.ofNat 11 || c == Char.ofNat 12

/-- JS `.` outside dot-all mode: any character except a newline. -/
def reDotStar : RE := .star (.cls (fun c => !(c == '\n')))

/-- The source pattern `/^(COPY|ADD)\s+[^ ]+\.(jar|sh)\s+.*$/m` applied to a
whole line.  Note the token class is `[^ ]` — any character other than a
space — not `\S`. -/
def copyDirectiveRE : RE :=
  .cat (.alt (reStr "COPY") (reStr "ADD"))
    (.cat (rePlus (.cls isJsWhitespace))
      (.cat (rePlus (.cls (fun c => !(c == ' '))))
        (.cat (reChar '.')
          (.cat (.alt (reStr "jar") (reStr "sh"))
            (.cat (rePlus (.cls isJsWhitespace)) reDotStar)))))

/-- Modelled from the spec wording of the claim: the same directive pattern
but with `\S+` (any non-whitespace characters) in place of `[^ ]+`, for
comparison with the pattern actually used by the source. -/
def specCopyDirectiveRE : RE :=
  .cat (.alt (reStr "COPY") (reStr "ADD"))
    (.cat (rePlus (.cls isJsWhitespace))
      (.cat (rePlus (.cls (fun c => !(isJsWhitespace c))))
        (.cat (reChar '.')
          (.cat (.alt (reStr "jar") (reStr "sh"))
            (.cat (rePlus (.cls isJsWhitespace)) reDotStar)))))

/-- A line matching the source's COPY/ADD directive pattern. -/
def lineIsCopyDirective (l : String) : Bool := reMatch copyDirectiveRE l.data

/-- A line matching the claim's `\S+` variant of the pattern. -/
def lineIsCopyDirectiveSpec (l : String) : Bool := reMatch specCopyDirectiveRE l.data

/-- The replacement directive written at line 147 of the source. -/
def newCopyDirective (serverJarFile : String) : String :=
  "COPY " ++ serverJarFile ++ " /server/minecraft_server.jar"

/-- The `Dockerfile` substitution at lines 145-148 of the source. -/
def patchBuildFile (lines : List String) (serverJarFile : String) : List String :=
  replaceFirstLine lineIsCopyDirective (newCopyDirective serverJarFile) lines

/-- Modelled from the spec's words for comparison: the same substitution but
selecting the line by the claim's `\S+` pattern. -/
def patchBuildFileSpec (lines : List String) (serverJarFile : String) : List String :=
  replaceFirstLine lineIsCopyDirectiveSpec (newCopyDirective serverJarFile) lines

/-- JS `String.prototype.includes`: `needle` occurs contiguously in `hay`
(case-sensitive). -/
def containsSubstring (needle : List Char) : List Char → Bool
  | [] => needle.isEmpty
  | c :: rest => needle.isPrefixOf (c :: rest) || containsSubstring needle rest

/-- The predicate at lines 163-167: name ends with `.jar` and contains
neither `installer` nor `client` (case-sensitive substring tests). -/
def serverJarPredicate (file : String) : Bool :=
  ".jar".data.isSuffixOf file.data
    && !(containsSubstring "installer".data file.data)
    && !(containsSubstring "client".data file.data)

/-- `findServerJarInTempDir` (lines 159-173).  The directory listing is
`none` when `fs.readdir` throws; the catch swallows the error and returns
`null`.  `files.find(...)` yields the first qualifying entry. -/
def findServerJarInTempDir (listing : Option (List String)) : Option String :=
  match listing with
  | none => none
  | some files => files.find? serverJarPredicate

/-- The pieces of local state touched by `updateRepoFiles`: the temp-dir
listing (input of `findServerJarInTempDir`), the launch script's lines, and
the Dockerfile's lines (`none` when the file does not exist, the
`existsSync` test). -/
structure RepoState where
  tempListing : Option (List String)
  launchSh : List String
  dockerfile : Option (List String)
deriving DecidableEq

/-- `updateRepoFiles(modpackVersion)` (lines 124-153): locate the server
jar, always patch `launch.sh`, and patch the Dockerfile only when a jar was
found and the file exists (otherwise warn and skip). -/
def updateRepoFiles (st : RepoState) (modpackVersion : String) : RepoState :=
  let serverJarFile := findServerJarInTempDir st.tempListing
  let st1 : RepoState := { st with launchSh := patchLaunchScript st.launchSh modpackVersion }
  match serverJarFile, st1.dockerfile with
  | some jar, some content => { st1 with dockerfile := some (patchBuildFile content jar) }
  | _, _ => st1

/-- Which of the awaited pipeline stages of `main` succeed in a given run. -/
structure RunOutcomes where
  mkdirOk : Bool
  findOk : Bool
  downloadOk : Bool
  extractOk : Bool
  updateOk : Bool
deriving DecidableEq

/-- The observable state `main` manipulates for the cleanup claim: whether
`./temp_server_files` exists. -/
structure MainWorld where
  tempDirExists : Bool
deriving DecidableEq

/-- The source's `main` (lines 178-207) as a state transformer returning
the final world and the process exit code.  Control flow of the source: the `try` block runs
the five stages in order; any throw lands in `catch`, which calls
`process.exit(1)` — in Node.js `process.exit` terminates the process
synchronously, so the pending `finally` block (the temp-dir cleanup) never
runs on the failure paths.  Only when the `try` block completes does the
`finally` cleanup execute before a normal exit 0. -/
def mainPipeline (o : RunOutcomes) (w : MainWorld) : MainWorld × Nat :=
  if o.mkdirOk = false then (w, 1)
  else
    let w1 : MainWorld := { tempDirExists := true }
    if o.findOk = false then (w1, 1)
    else if o.downloadOk = false then (w1, 1)
    else if o.extractOk = false then (w1, 1)
    else if o.updateOk = false then (w1, 1)
    else
      let w2 : MainWorld := if w1.tempDirExists then { tempDirExists := false } else w1
      (w2, 0)

/-! ## Helper lemmas -/

/-- Unfolding equation for `sortByDateDesc` on a cons cell. -/
theorem sortByDateDesc_cons (x : FileMetadata) (xs : List FileMetadata) :
    sortByDateDesc (x :: xs) = insertByDateDesc x (sortByDateDesc xs) := rfl

/-- Head of a stable descending insertion: the inserted element wins unless
the previous head is strictly newer. -/
theorem head?_insertByDateDesc (x : FileMetadata) (s : List FileMetadata) :
    (insertByDateDesc x s).head? =
      some (match s.head? with
            | none => x
            | some y => if x.fileDate < y.fileDate then y else x) := by
  cases s with
  | nil => rfl
  | cons y ys =>
    by_cases h : x.fileDate < y.fileDate <;> simp [insertByDateDesc, h]

/-- A replacement over a list with no matching line is the identity. -/
theorem replaceFirstLine_all_neg (p : String → Bool) (new : String) (ls : List String)
    (h : ∀ l ∈ ls, p l = false) : replaceFirstLine p new ls = ls := by
  induction ls with
  | nil => rfl
  | cons x xs ih =>
    have hx := h x (by simp)
    simp [replaceFirstLine, hx, ih fun l hl => h l (by simp [hl])]

/-- When some line matches, `replaceFirstLine` rewrites exactly the first
matching line and keeps everything else. -/
theorem replaceFirstLine_decomp (p : String → Bool) (new : String) (ls : List String)
    (h : ∃ l, l ∈ ls ∧ p l = true) :
    ∃ pre old post, ls = pre ++ old :: post ∧ p old = true ∧
      (∀ l ∈ pre, p l = false) ∧
      replaceFirstLine p new ls = pre ++ new :: post := by
  induction ls with
  | nil => simp at h
  | cons x xs ih =>
    by_cases hx : p x = true
    · exact ⟨[], x, xs, rfl, hx, by simp, by simp [replaceFirstLine, hx]⟩
    · have hx' : p x = false := by simpa using hx
      have hxs : ∃ l, l ∈ xs ∧ p l = true := by
        rcases h with ⟨l, hl, hpl⟩
        rcases List.mem_cons.mp hl with rfl | hl
        · simp [hpl] at hx'
        · exact ⟨l, hl, hpl⟩
      obtain ⟨pre, old, post, hdec, hold, hpre, hres⟩ := ih hxs
      refine ⟨x :: pre, old, post, ?_, hold, ?_, ?_⟩
      · rw [List.cons_append, hdec]
      · intro l hl
        rcases List.mem_cons.mp hl with rfl | hl
        · exact hx'
        · exact hpre l hl
      · simp [replaceFirstLine, hx', hres]

/-- A successful `List.find?` splits the list at the first match. -/
theorem find?_decomp {α : Type} (p : α → Bool) (l : List α) (a : α)
    (h : l.find? p = some a) :
    ∃ pre post, l = pre ++ a :: post ∧ p a = true ∧ ∀ x ∈ pre, p x = false := by
  induction l with
  | nil => simp [List.find?] at h
  | cons x xs ih =>
    by_cases hx : p x = true
    · rw [List.find?_cons_of_pos xs hx] at h
      obtain rfl := Option.some.inj h
      exact ⟨[], xs, rfl, hx, by simp⟩
    · have hx' : p x = false := by simpa using hx
      rw [List.find?_cons_of_neg xs (by simp [hx'])] at h
      obtain ⟨pre, post, hdec, hpa, hpre⟩ := ih h
      refine ⟨x :: pre, post, by rw [List.cons_append, hdec], hpa, ?_⟩
      intro y hy
      rcases List.mem_cons.mp hy with rfl | hy
      · exact hx'
      · exact hpre y hy

/-- `List.find?` returns the head of a first-match decomposition: if every
element of `pre` fails the predicate and `a` satisfies it, the search over
`pre ++ a :: post` returns `a`. -/
theorem find?_first {α : Type} (p : α → Bool) (pre : List α) (a : α) (post : List α)
    (ha : p a = true) (hpre : ∀ x ∈ pre, p x = false) :
    (pre ++ a :: post).find? p = some a := by
  induction pre with
  | nil => exact List.find?_cons_of_pos post ha
  | cons x xs ih =>
    rw [List.cons_append, List.find?_cons_of_neg _ (by simp [hpre x (by simp)])]
    exact ih fun y hy => hpre y (by simp [hy])

/-- A line of the shape `SERVER_VERSION=<v>` matches the launch-script
pattern. -/
theorem isServerVersionLine_target (v : String) :
    isServerVersionLine ("SERVER_VERSION=" ++ v) = true := by
  unfold isServerVersionLine
  rw [String.data_append]
  simp [List.isPrefixOf_iff_prefix]

/-! ## Claim theorems -/

/-- Claim C1: membership in the candidate filter's output is exactly
membership in the listing together with a truthy `serverPackFileId` and a
present version-tag list containing the configured target version; in
particular every entry with a non-matching tag set, an absent or falsy
server-pack id, or a missing version-tag field is excluded, and a missing
field never causes an error. -/
theorem candidateFilter_mem_iff (files : List FileMetadata) (f : FileMetadata) :
    f ∈ candidateFilter files ↔
      f ∈ files ∧ serverPackTruthy f = true ∧
        ∃ tags, f.gameVersion = some tags ∧ MINECRAFT_VERSION ∈ tags := by
  rw [candidateFilter, List.mem_filter]
  refine and_congr_right fun _ => ?_
  cases hgv : f.gameVersion with
  | none => simp [fileEligible, hgv]
  | some tags => simp [fileEligible, hgv]

/-- Witness for C1: a concrete eligible entry passes the filter. -/
theorem candidateFilter_mem_iff_witness :
    (⟨"d", "n.zip", 5, some ["1.21"], some 7⟩ : FileMetadata) ∈
      candidateFilter [⟨"d", "n.zip", 5, some ["1.21"], some 7⟩] :=
  (candidateFilter_mem_iff [⟨"d", "n.zip", 5, some ["1.21"], some 7⟩]
    ⟨"d", "n.zip", 5, some ["1.21"], some 7⟩).mpr
    ⟨by simp, rfl, ["1.21"], rfl, by decide⟩

/-- Claim C2: on a non-empty listing the stable descending sort followed by
taking the first element returns an entry of maximal release date, and the
entries preceding it in the original order are all strictly older — i.e.
ties on the maximal date resolve to the first-encountered entry. -/
theorem selectLatest_first_max (l : List FileMetadata) (h : l ≠ []) :
    ∃ l₁ m l₂, l = l₁ ++ m :: l₂ ∧ selectLatest l = some m ∧
      (∀ x ∈ l, x.fileDate ≤ m.fileDate) ∧ (∀ x ∈ l₁, x.fileDate < m.fileDate) := by
  induction l with
  | nil => exact absurd rfl h
  | cons x xs ih =>
    cases xs with
    | nil => exact ⟨[], x, [], rfl, rfl, by simp, by simp⟩
    | cons y ys =>
      obtain ⟨l₁, m, l₂, hdec, hsel, hmax, hstrict⟩ := ih (by simp)
      have hsel2 : (sortByDateDesc (y :: ys)).head? = some m := hsel
      have hsel' : selectLatest (x :: y :: ys) =
          some (if x.fileDate < m.fileDate then m else x) := by
        show (sortByDateDesc (x :: y :: ys)).head? = _
        rw [sortByDateDesc_cons, head?_insertByDateDesc, hsel2]
      by_cases hxm : x.fileDate < m.fileDate
      · refine ⟨x :: l₁, m, l₂, by rw [List.cons_append, hdec], ?_, ?_, ?_⟩
        · rw [hsel', if_pos hxm]
        · intro z hz
          rcases List.mem_cons.mp hz with rfl | hz
          · exact Nat.le_of_lt hxm
          · exact hmax z hz
        · intro z hz
          rcases List.mem_cons.mp hz with rfl | hz
          · exact hxm
          · exact hstrict z hz
      · refine ⟨[], x, y :: ys, rfl, ?_, ?_, by simp⟩
        · rw [hsel', if_neg hxm]
        · intro z hz
          rcases List.mem_cons.mp hz with rfl | hz
          · exact Nat.le_refl _
          · exact Nat.le_trans (hmax z hz) (Nat.le_of_not_lt hxm)

/-- Witness for C2: on a concrete two-entry listing the selection facts
hold. -/
theorem selectLatest_first_max_witness :
    ([(⟨"a", "a.zip", 5, some ["1.21"], some 1⟩ : FileMetadata),
      ⟨"b", "b.zip", 9, some ["1.21"], some 2⟩] ≠ []) ∧
    ∃ l₁ m l₂,
      [(⟨"a", "a.zip", 5, some ["1.21"], some 1⟩ : FileMetadata),
        ⟨"b", "b.zip", 9, some ["1.21"], some 2⟩] = l₁ ++ m :: l₂ ∧
      selectLatest [(⟨"a", "a.zip", 5, some ["1.21"], some 1⟩ : FileMetadata),
        ⟨"b", "b.zip", 9, some ["1.21"], some 2⟩] = some m ∧
      (∀ x ∈ [(⟨"a", "a.zip", 5, some ["1.21"], some 1⟩ : FileMetadata),
        ⟨"b", "b.zip", 9, some ["1.21"], some 2⟩], x.fileDate ≤ m.fileDate) ∧
      (∀ x ∈ l₁, x.fileDate < m.fileDate) :=
  ⟨by decide, selectLatest_first_max _ (by decide)⟩

/-- Claim C3: resolution fails with the upstream-response error whenever the
response's `data` field is not an array, and with the no-matching-release
error whenever the filtered candidate set is empty; in both cases the result
is an error, so no release is resolved. -/
theorem findLatestServerFile_error_paths (resp : ApiResponse) (getFile : Nat → FileDetail) :
    (resp.data = none → findLatestServerFile resp getFile = .error .upstreamResponse) ∧
    (∀ files, resp.data = some files → candidateFilter files = [] →
      findLatestServerFile resp getFile = .error .noMatchingRelease) := by
  constructor
  · intro h
    simp [findLatestServerFile, h]
  · intro files hdata hfilt
    simp [findLatestServerFile, hdata, hfilt, selectLatest, sortByDateDesc]

/-- Witness for C3: a non-array response and an empty filtered set produce
the two errors. -/
theorem findLatestServerFile_error_paths_witness :
    findLatestServerFile ⟨none⟩ (fun _ => ⟨""⟩) = .error .upstreamResponse ∧
    findLatestServerFile ⟨some []⟩ (fun _ => ⟨""⟩) = .error .noMatchingRelease :=
  ⟨(findLatestServerFile_error_paths ⟨none⟩ (fun _ => ⟨""⟩)).1 rfl,
   (findLatestServerFile_error_paths ⟨some []⟩ (fun _ => ⟨""⟩)).2 [] rfl rfl⟩

/-- Counterexample for C4 as stated: on a launch script with no
`SERVER_VERSION=` line the substitution is a no-op, so the patched content
does not contain exactly one line equal to `SERVER_VERSION=1.0`. -/
theorem patchLaunchScript_roundtrip_cex :
    patchLaunchScript ["hello"] "1.0" = ["hello"] ∧
    ¬ ((patchLaunchScript ["hello"] "1.0").countP
        (fun l => l == "SERVER_VERSION=1.0") = 1) := by
  decide

/-- Claim C4 (amended): for every launch-script content with exactly one
line matching `^SERVER_VERSION=`, patching with version label `v` replaces
that line by `SERVER_VERSION=v`, leaves every other line unchanged, and the
result has exactly one line equal to `SERVER_VERSION=v`. -/
theorem patchLaunchScript_single_match (lines : List String) (v : String)
    (h : lines.countP isServerVersionLine = 1) :
    ∃ pre old post, lines = pre ++ old :: post ∧ isServerVersionLine old = true ∧
      (∀ l ∈ pre, isServerVersionLine l = false) ∧
      patchLaunchScript lines v = pre ++ ("SERVER_VERSION=" ++ v) :: post ∧
      (patchLaunchScript lines v).countP (fun l => l == "SERVER_VERSION=" ++ v) = 1 := by
  have hex : ∃ l, l ∈ lines ∧ isServerVersionLine l = true := by
    by_contra hno
    push_neg at hno
    have hzero : lines.countP isServerVersionLine = 0 := by
      refine List.countP_eq_zero.mpr fun a ha => ?_
      simp [hno a ha]
    omega
  obtain ⟨pre, old, post, hdec, hold, hpre, hres⟩ :=
    replaceFirstLine_decomp isServerVersionLine ("SERVER_VERSION=" ++ v) lines hex
  have hcounts : pre.countP isServerVersionLine = 0 ∧ post.countP isServerVersionLine = 0 := by
    have h1 : lines.countP isServerVersionLine =
        pre.countP isServerVersionLine + (post.countP isServerVersionLine + 1) := by
      rw [hdec, List.countP_append]
      simp [List.countP_cons, hold]
    rw [h] at h1
    omega
  have htar : ∀ l : String, (l == "SERVER_VERSION=" ++ v) = true →
      isServerVersionLine l = true := by
    intro l hl
    have hl' : l = "SERVER_VERSION=" ++ v := by simpa using hl
    rw [hl']
    exact isServerVersionLine_target v
  refine ⟨pre, old, post, hdec, hold, hpre, hres, ?_⟩
  have hres2 : patchLaunchScript lines v = pre ++ ("SERVER_VERSION=" ++ v) :: post := hres
  rw [hres2, List.countP_append]
  have hof : ∀ s : List String, s.countP isServerVersionLine = 0 →
      s.countP (fun l => l == "SERVER_VERSION=" ++ v) = 0 := by
    intro s hs
    refine List.countP_eq_zero.mpr fun a ha hcon => ?_
    have hsv : isServerVersionLine a = true := htar a (by simpa using hcon)
    have := List.countP_eq_zero.mp hs a ha
    simp [hsv] at this
  have hone : (("SERVER_VERSION=" ++ v) :: post).countP
      (fun l => l == "SERVER_VERSION=" ++ v) = post.countP (fun l => l == "SERVER_VERSION=" ++ v) + 1 := by
    simp [List.countP_cons]
  rw [hone, hof pre hcounts.1, hof post hcounts.2]

/-- Witness for the amended C4: a concrete two-line script with one
version line. -/
theorem patchLaunchScript_single_match_witness :
    (["SERVER_VERSION=0", "run"].countP isServerVersionLine = 1) ∧
    (∃ pre old post, ["SERVER_VERSION=0", "run"] = pre ++ old :: post ∧
      isServerVersionLine old = true ∧
      (∀ l ∈ pre, isServerVersionLine l = false) ∧
      patchLaunchScript ["SERVER_VERSION=0", "run"] "9" =
        pre ++ ("SERVER_VERSION=" ++ "9") :: post ∧
      (patchLaunchScript ["SERVER_VERSION=0", "run"] "9").countP
        (fun l => l == "SERVER_VERSION=" ++ "9") = 1) :=
  ⟨by decide, patchLaunchScript_single_match ["SERVER_VERSION=0", "run"] "9" (by decide)⟩

/-- Claim C5: the Dockerfile patch is attempted only when a server jar was
located and the build file exists; when the jar search came back empty, or
the Dockerfile does not exist, the Dockerfile state is unchanged by
`updateRepoFiles` (skip with warning, not an error). -/
theorem updateRepoFiles_skips_buildfile (st : RepoState) (v : String)
    (h : findServerJarInTempDir st.tempListing = none ∨ st.dockerfile = none) :
    (updateRepoFiles st v).dockerfile = st.dockerfile := by
  rcases h with h | h
  · simp [updateRepoFiles, h]
  · cases hj : findServerJarInTempDir st.tempListing <;> simp [updateRepoFiles, h, hj]

/-- Witness for C5: with an empty temp-dir listing the Dockerfile content is
untouched. -/
theorem updateRepoFiles_skips_buildfile_witness :
    (updateRepoFiles ⟨some [], ["SERVER_VERSION=0"], some ["COPY a.jar /server"]⟩ "9").dockerfile
      = some ["COPY a.jar /server"] :=
  updateRepoFiles_skips_buildfile
    ⟨some [], ["SERVER_VERSION=0"], some ["COPY a.jar /server"]⟩ "9" (Or.inl rfl)

/-- Counterexample for C6 as stated: the source's token class is `[^ ]+`
(any character other than a space), not the claim's `\S+`; on the line
`COPY a<TAB>b.jar x` the code's pattern matches (the tab is allowed inside
`[^ ]+`) and the line is replaced, while under the claim's `\S+` pattern no
line matches and the content would have been left unchanged. -/
theorem patchBuildFile_pattern_cex :
    patchBuildFile ["COPY a\tb.jar x"] "server.jar"
        = ["COPY server.jar /server/minecraft_server.jar"] ∧
    patchBuildFileSpec ["COPY a\tb.jar x"] "server.jar" = ["COPY a\tb.jar x"] := by
  decide

/-- Claim C6 (amended): with the pattern as written in the source —
`^(COPY|ADD)\s+[^ ]+\.(jar|sh)\s+.*$` with `[^ ]` in place of `\S` — the
patch replaces exactly the first matching line by
`COPY <jar> /server/minecraft_server.jar` and keeps all other lines; a
content with no matching line is written back unchanged. -/
theorem patchBuildFile_first_match (content : List String) (jar : String) :
    ((∀ l ∈ content, lineIsCopyDirective l = false) ∧
      patchBuildFile content jar = content) ∨
    (∃ pre old post, content = pre ++ old :: post ∧ lineIsCopyDirective old = true ∧
      (∀ l ∈ pre, lineIsCopyDirective l = false) ∧
      patchBuildFile content jar = pre ++ newCopyDirective jar :: post) := by
  by_cases h : ∃ l, l ∈ content ∧ lineIsCopyDirective l = true
  · exact Or.inr (replaceFirstLine_decomp _ _ content h)
  · push_neg at h
    refine Or.inl ⟨fun l hl => by simpa using h l hl, ?_⟩
    exact replaceFirstLine_all_neg _ _ content fun l hl => by simpa using h l hl

/-- Witness for the amended C6 at a concrete Dockerfile with no directive
line. -/
theorem patchBuildFile_first_match_witness :
    ((∀ l ∈ ["FROM ubuntu"], lineIsCopyDirective l = false) ∧
      patchBuildFile ["FROM ubuntu"] "server.jar" = ["FROM ubuntu"]) ∨
    (∃ pre old post, ["FROM ubuntu"] = pre ++ old :: post ∧
      lineIsCopyDirective old = true ∧
      (∀ l ∈ pre, lineIsCopyDirective l = false) ∧
      patchBuildFile ["FROM ubuntu"] "server.jar" = pre ++ newCopyDirective "server.jar" :: post) :=
  patchBuildFile_first_match ["FROM ubuntu"] "server.jar"

/-- Claim C7: a response whose status is not 2xx makes the download fail
with the download error before the write stream is even created, so the
filesystem — in particular the destination path — is exactly as before. -/
theorem downloadFile_badStatus (resp : HttpResponse) (fs : FileSystem) (outputPath : String)
    (h : resp.ok = false) :
    downloadFile resp fs outputPath = (.error .badStatus, fs) := by
  simp [downloadFile, h]

/-- Witness for C7 at a concrete failed response. -/
theorem downloadFile_badStatus_witness :
    downloadFile ⟨false, .success []⟩ [] "./temp_server_files/server-files.zip"
      = (.error .badStatus, []) :=
  downloadFile_badStatus ⟨false, .success []⟩ [] "./temp_server_files/server-files.zip" rfl

/-- Claim C9: the jar search is total over directory states — it returns
the first immediate entry ending in `.jar` that contains neither
`installer` nor `client`, and returns `none` (never an exception) both when
the directory cannot be read and when no entry qualifies.  Positively:
whenever the listing splits as `pre ++ j :: post` with `j` qualifying and
every entry of `pre` failing the predicate — i.e. `j` is the first
qualifying entry — the function returns exactly `j`; conversely any
returned entry arises from such a split. -/
theorem findServerJarInTempDir_spec (listing : Option (List String)) :
    (listing = none → findServerJarInTempDir listing = none) ∧
    (∀ files, listing = some files →
      ((∀ f ∈ files, serverJarPredicate f = false) →
        findServerJarInTempDir listing = none) ∧
      (∀ pre j post, files = pre ++ j :: post → serverJarPredicate j = true →
        (∀ f ∈ pre, serverJarPredicate f = false) →
        findServerJarInTempDir listing = some j) ∧
      (∀ j, findServerJarInTempDir listing = some j →
        ∃ pre post, files = pre ++ j :: post ∧ serverJarPredicate j = true ∧
          ∀ f ∈ pre, serverJarPredicate f = false)) := by
  refine ⟨fun h => by rw [h]; rfl, fun files hf => ⟨?_, ?_, ?_⟩⟩
  · intro hall
    rw [hf]
    show files.find? serverJarPredicate = none
    exact List.find?_eq_none.mpr fun x hx => by simp [hall x hx]
  · intro pre j post hdec hj hpre
    rw [hf, hdec]
    show (pre ++ j :: post).find? serverJarPredicate = some j
    exact find?_first serverJarPredicate pre j post hj hpre
  · intro j hj
    rw [hf] at hj
    exact find?_decomp serverJarPredicate files j hj

/-- Witness for C9: in a concrete listing the client jar fails the
predicate, the server jar is the first qualifying entry, and the function
does return it. -/
theorem findServerJarInTempDir_spec_witness :
    findServerJarInTempDir (some ["a-client.jar", "server.jar"]) = some "server.jar" :=
  ((((findServerJarInTempDir_spec (some ["a-client.jar", "server.jar"])).2
      ["a-client.jar", "server.jar"] rfl).2).1) ["a-client.jar"] "server.jar" []
    rfl (by decide) (by decide)

/-- Claim C10 is a bug in the code: the `catch` block calls
`process.exit(1)` which terminates the Node.js process synchronously, so
the `finally` cleanup never runs on a failure path.  Concretely, in a run
where the download stage fails the scratch directory still exists at
process exit (with exit code 1), while on the all-success path the cleanup
does run. -/
theorem mainPipeline_failure_skips_cleanup :
    (mainPipeline ⟨true, true, false, true, true⟩ ⟨false⟩).1.tempDirExists = true ∧
    (mainPipeline ⟨true, true, false, true, true⟩ ⟨false⟩).2 = 1 ∧
    (mainPipeline ⟨true, true, true, true, true⟩ ⟨false⟩).1.tempDirExists = false ∧
    (mainPipeline ⟨true, true, true, true, true⟩ ⟨false⟩).2 = 0 := by
  decide
